import Mathlib

/- Verification of the passwordless-login core of chatterbox-express.

   The repository ships two variants of its AuthService class: the one in
   src/services/authService.js (namespace AuthServiceJs below, the module the
   controllers import) and a second copy embedded in
   src/services/emailService.js (namespace EmailServiceJs below).  They
   diverge in the code generator, in the lockout check and in the code
   comparison performed by verifyLoginCode; both are embedded here.

   Database rows are Lean structures, timestamps are epoch seconds (Nat,
   with Date.now() modelled as 1000 * now), and every store method is a pure
   state transition: the begin/commit/rollback block of a method is modelled
   by the method being one atomic function from the table state to a result
   and the next table state, the pre-call state surviving on the error
   (rollback) path. -/

namespace Chatterbox

/-- Row of the login_attempts table (migration 001_initial_tables.sql):
attemptid serial primary key, email, code, created_at, is_used default
false. -/
structure LoginAttempt where
  attemptid : Nat
  email : String
  code : String
  created_at : Nat
  is_used : Bool
  deriving DecidableEq, Repr

/-- Row of the accounts table (migration 001_initial_tables.sql); the email
column carries a UNIQUE constraint. -/
structure Account where
  accountid : Nat
  email : String
  created_at : Nat
  last_login_at : Option Nat
  is_active : Bool
  deriving DecidableEq, Repr

/-- State of the login_attempts table together with the serial counter
backing attemptid. -/
structure AttemptDB where
  rows : List LoginAttempt
  nextId : Nat
  deriving DecidableEq, Repr

/-- State of the accounts table together with the serial counter backing
accountid. -/
structure AccountDB where
  accounts : List Account
  nextId : Nat
  deriving DecidableEq, Repr

/-- One pass of Node crypto.timingSafeEqual over two byte buffers, returning
the verdict together with the number of byte positions examined.  The
primitive accumulates a result over every position and never exits early, so
on equal-length buffers the count is the full length.  Login codes are ASCII
digit strings, so the UTF-8 buffer of a code is modelled as its character
list. -/
def ctRun : List Char → List Char → Bool × Nat
  | [], [] => (true, 0)
  | [], _ :: _ => (false, 0)
  | _ :: _, [] => (false, 0)
  | x :: xs, y :: ys =>
    let r := ctRun xs ys
    (r.1 && decide (x = y), r.2 + 1)

/-- Node crypto.timingSafeEqual: throws a RangeError when the buffer lengths
differ, otherwise compares every byte in constant time. -/
def timingSafeEqual (a b : List Char) : Except String Bool :=
  if a.length = b.length then .ok (ctRun a b).1
  else .error "RangeError: Input buffers must have the same byte length"

/-- Number of byte positions examined by one timingSafeEqual comparison. -/
def timingSafeEqualCost (a b : List Char) : Nat := (ctRun a b).2

/-- Ordinary short-circuit equality on byte strings, as performed by the SQL
text comparison code = $2 in the authService.js variant of verifyLoginCode:
the verdict together with the number of byte positions examined before the
comparison stops.  It stops at the first differing byte. -/
def scRun : List Char → List Char → Bool × Nat
  | [], [] => (true, 0)
  | [], _ :: _ => (false, 0)
  | _ :: _, [] => (false, 0)
  | x :: xs, y :: ys =>
    if x = y then
      let r := scRun xs ys
      (r.1, r.2 + 1)
    else (false, 1)

/-- Verdict of the ordinary SQL text equality on two codes. -/
def sqlCodeEq (a b : String) : Bool := (scRun a.data b.data).1

/-- Byte positions the ordinary SQL text equality examines on two codes. -/
def sqlCodeEqCost (a b : String) : Nat := (scRun a.data b.data).2

/-- Row created within the last w seconds: the SQL condition
created_at > now() - interval. -/
def withinLast (now w t : Nat) : Bool := decide (now - w < t)

/-- Rate query shared by both variants of canRequestLoginCode: count of
attempts for the email created within the last minute (rateLimitMinutes
is 1). -/
def countRecentAttempts (rows : List LoginAttempt) (now : Nat) (email : String) : Nat :=
  (rows.filter fun a => decide (a.email = email) && withinLast now 60 a.created_at).length

/-- Lockout query of the emailService.js variant: count of unused attempts
for the email created within the last hour. -/
def countRecentFailedAttempts (rows : List LoginAttempt) (now : Nat) (email : String) : Nat :=
  (rows.filter fun a =>
    decide (a.email = email) && withinLast now 3600 a.created_at && !a.is_used).length

/-- Order produced by the SQL clause: order by created_at desc. -/
def newestFirst (a b : LoginAttempt) : Prop := b.created_at ≤ a.created_at

instance : DecidableRel newestFirst := fun a b => Nat.decLe b.created_at a.created_at

instance : IsTotal LoginAttempt newestFirst := ⟨fun a b => Nat.le_total b.created_at a.created_at⟩

instance : IsTrans LoginAttempt newestFirst := ⟨fun _ _ _ h1 h2 => Nat.le_trans h2 h1⟩

/-- Effect of: update login_attempts set is_used = true where
attemptid = $1. -/
def markUsed (rows : List LoginAttempt) (id : Nat) : List LoginAttempt :=
  rows.map fun a => if a.attemptid = id then { a with is_used := true } else a

/-- Reversed decimal digits of n, with an explicit fuel argument so the
recursion is structural; fuel n is always enough since every step divides n
by 10. -/
def decDigitsRev : Nat → Nat → List Nat
  | 0, _ => []
  | _ + 1, 0 => []
  | fuel + 1, n + 1 => ((n + 1) % 10) :: decDigitsRev fuel ((n + 1) / 10)

/-- Decimal printing of a natural number, as JavaScript
Number.prototype.toString performs it on a non-negative integer. -/
def natDecimalRepr (n : Nat) : String :=
  if n = 0 then "0"
  else String.mk ((decDigitsRev n n).reverse.map fun d => Char.ofNat (48 + d))

/-- Random draws available to one generateLoginCode call.
crypto.randomInt(100000, 1000000) yields 100000 + cryptoInt from the
operating-system CSPRNG; Math.floor(100000 + Math.random() * 900000) yields
100000 + mathRandom, where mathRandom abstracts the floored scaled output of
the general-purpose xorshift PRNG behind Math.random. -/
structure RandomSources where
  cryptoInt : Fin 900000
  mathRandom : Fin 900000
  deriving DecidableEq, Repr

/-- Claims carried by a token of this system: the generateJWT payload fields
plus the registered claims the jsonwebtoken library adds or checks. -/
structure JwtPayload where
  accountId : Nat
  email : String
  iat : Nat
  exp : Nat
  nbf : Option Nat
  iss : String
  deriving DecidableEq, Repr

/-- Symbolic signature: a MAC over a payload by a secret.  Signature equality
then means signed by exactly this secret over exactly this payload, which
models an unforgeable signing scheme. -/
inductive Signature where
  | mac (secret : Nat) (payload : JwtPayload)
  deriving DecidableEq, Repr

/-- A presented bearer token: either not parseable as a JWT at all, or a
well-formed JWT carrying a payload and a signature. -/
inductive Token where
  | malformed (raw : String)
  | wellFormed (payload : JwtPayload) (sig : Signature)
  deriving DecidableEq, Repr

/-- Error classes of the jsonwebtoken library, distinguished by error.name:
JsonWebTokenError, TokenExpiredError, NotBeforeError. -/
inductive JwtLibError where
  | jsonWebTokenError
  | tokenExpiredError
  | notBeforeError
  deriving DecidableEq, Repr

/-- The nbf claim rejects the token while now is before the claimed time. -/
def nbfViolated (p : JwtPayload) (now : Nat) : Bool :=
  match p.nbf with
  | some t0 => decide (now < t0)
  | none => false

/-- Modelled from the jsonwebtoken library, an external dependency of
authService.js: verify decodes the token, rejects malformed input and bad
signatures with JsonWebTokenError, then checks the nbf claim
(NotBeforeError) and only after that the exp claim (TokenExpiredError, when
now has reached exp).  A token that is both expired and badly signed is
therefore rejected for its signature. -/
def jwtLibVerify (secret now : Nat) (t : Token) : Except JwtLibError JwtPayload :=
  match t with
  | .malformed _ => .error .jsonWebTokenError
  | .wellFormed p sig =>
    if sig = Signature.mac secret p then
      if nbfViolated p now then .error .notBeforeError
      else if p.exp ≤ now then .error .tokenExpiredError
      else .ok p
    else .error .jsonWebTokenError

/-- Error surface of AuthService.verifyJWT, by thrown message: Token
expired, Invalid token, Token validation failed. -/
inductive VerifyJWTError where
  | tokenExpired
  | tokenInvalid
  | tokenValidationFailed
  deriving DecidableEq, Repr

/-- verifyJWT of AuthService (identical in both variants): jwt.verify with
the error mapping of the catch block, keyed on error.name. -/
def verifyJWT (secret now : Nat) (t : Token) : Except VerifyJWTError JwtPayload :=
  match jwtLibVerify secret now t with
  | .ok p => .ok p
  | .error .tokenExpiredError => .error .tokenExpired
  | .error .jsonWebTokenError => .error .tokenInvalid
  | .error .notBeforeError => .error .tokenValidationFailed

/-- generateJWT of AuthService: payload accountId, email, iat = now, signed
with the server secret, expiresIn 30d (exp = iat + 2592000 seconds), issuer
chatterbox-app, no nbf claim. -/
def generateJWT (secret now accountId : Nat) (email : String) : Token :=
  let p : JwtPayload :=
    { accountId := accountId, email := email, iat := now,
      exp := now + 2592000, nbf := none, iss := "chatterbox-app" }
  .wellFormed p (.mac secret p)

/-- Query of findAccountByEmail: select * from accounts where email = $1,
first row. -/
def findAccountByEmail (accounts : List Account) (email : String) : Option Account :=
  accounts.find? fun a => decide (a.email = email)

/-- createAccount of AuthService: insert into accounts (email,
last_login_at) values ($1, now()) returning accountid.  The UNIQUE
constraint on email makes the insert fail when a row with this email already
exists, and the catch block then surfaces the storage error below; there is
no fallback read of the existing row. -/
def createAccount (db : AccountDB) (now : Nat) (email : String) :
    Except String (Nat × AccountDB) :=
  if db.accounts.any fun a => decide (a.email = email) then
    .error "database error creating account"
  else
    .ok (db.nextId,
      { accounts := db.accounts ++
          [{ accountid := db.nextId, email := email, created_at := now,
             last_login_at := some now, is_active := true }],
        nextId := db.nextId + 1 })

/-- updateLastLogin of AuthService: update accounts set last_login_at =
now() where accountid = $1; best-effort, failures are swallowed. -/
def updateLastLogin (accounts : List Account) (id now : Nat) : List Account :=
  accounts.map fun a =>
    if a.accountid = id then { a with last_login_at := some now } else a

/-- Body returned by a successful login: token, expiresAt and the account
object of the JSON response. -/
structure LoginResult where
  token : Token
  expiresAtMs : Nat
  accountId : Nat
  email : String
  deriving DecidableEq, Repr

/-- completeLogin of AuthService: find the account by email, create it when
absent, touch last-login, issue the session token and the 30-day expiry
timestamp (Date.now() modelled as 1000 * now). -/
def completeLogin (secret now : Nat) (db : AccountDB) (email : String) :
    Except String (LoginResult × AccountDB) :=
  match findAccountByEmail db.accounts email with
  | some acct =>
    .ok ({ token := generateJWT secret now acct.accountid email,
           expiresAtMs := 1000 * now + 30 * 24 * 60 * 60 * 1000,
           accountId := acct.accountid, email := email },
         { db with accounts := updateLastLogin db.accounts acct.accountid now })
  | none =>
    match createAccount db now email with
    | .error e => .error ("login completion failed: " ++ e)
    | .ok (id, db2) =>
      .ok ({ token := generateJWT secret now id email,
             expiresAtMs := 1000 * now + 30 * 24 * 60 * 60 * 1000,
             accountId := id, email := email },
           { db2 with accounts := updateLastLogin db2.accounts id now })

/-- validateLoginCode middleware: the regular expression test for exactly
six ASCII digits applied to the (sanitized, trimmed) request code. -/
def validateLoginCode (code : String) : Bool :=
  decide (code.length = 6) && code.data.all Char.isDigit

namespace EmailServiceJs

/-- generateLoginCode of the AuthService copy embedded in emailService.js:
the value drawn by crypto.randomInt(100000, 1000000). -/
def loginCodeValue (src : RandomSources) : Nat := 100000 + src.cryptoInt.val

/-- generateLoginCode of the emailService.js variant: the crypto.randomInt
draw printed with toString. -/
def generateLoginCode (src : RandomSources) : String :=
  natDecimalRepr (loginCodeValue src)

/-- Candidate filter of the verifyLoginCode query in the emailService.js
variant: same email, unused, created within the last 10 minutes
(loginCodeExpiryMinutes is 10); the supplied code is deliberately absent
from the query. -/
def isCandidate (now : Nat) (email : String) (a : LoginAttempt) : Bool :=
  decide (a.email = email) && !a.is_used && withinLast now 600 a.created_at

/-- Result set of the select in verifyLoginCode: every candidate, ordered
newest first. -/
def recentValidAttempts (rows : List LoginAttempt) (now : Nat) (email : String) :
    List LoginAttempt :=
  List.insertionSort newestFirst (rows.filter (isCandidate now email))

/-- Loop of verifyLoginCode: walk the candidates, compare each stored code
against the supplied code with crypto.timingSafeEqual, and stop at the first
match; a buffer-length mismatch makes timingSafeEqual throw out of the
loop. -/
def findMatch (code : String) : List LoginAttempt → Except String (Option LoginAttempt)
  | [] => .ok none
  | a :: rest =>
    match timingSafeEqual a.code.data code.data with
    | .error e => .error e
    | .ok true => .ok (some a)
    | .ok false => findMatch code rest

/-- Byte positions examined by the comparisons of one verifyLoginCode scan
over a candidate list. -/
def scanCost (code : String) : List LoginAttempt → Nat
  | [] => 0
  | a :: rest =>
    if a.code.data.length = code.data.length then
      timingSafeEqualCost a.code.data code.data +
        (if (ctRun a.code.data code.data).1 then 0 else scanCost code rest)
    else 0

/-- verifyLoginCode of the emailService.js variant: one transaction that
selects the candidates, scans them with the constant-time comparison, marks
the first match used and commits; any error thrown inside the transaction
rolls it back and surfaces as the storage error below.  The transaction is
the atomic step from rows to the returned table state. -/
def verifyLoginCode (rows : List LoginAttempt) (now : Nat) (email code : String) :
    Except String (Option LoginAttempt × List LoginAttempt) :=
  match findMatch code (recentValidAttempts rows now email) with
  | .error _ => .error "database error verifying login code"
  | .ok none => .ok (none, rows)
  | .ok (some a) => .ok (some a, markUsed rows a.attemptid)

/-- Table state after a verifyLoginCode call: on the error path the
transaction was rolled back, so the pre-call state persists. -/
def verifyLoginCodeState (rows : List LoginAttempt) (now : Nat) (email code : String) :
    List LoginAttempt :=
  match verifyLoginCode rows now email code with
  | .ok (_, rows2) => rows2
  | .error _ => rows

/-- Total number of byte positions examined by the code comparisons of one
verifyLoginCode call. -/
def verifyCost (rows : List LoginAttempt) (now : Nat) (email code : String) : Nat :=
  scanCost code (recentValidAttempts rows now email)

/-- Error thrown by the canRequestLoginCode of the emailService.js variant
when the lockout threshold is reached. -/
inductive RateCheckError where
  | accountLocked
  deriving DecidableEq, Repr

/-- canRequestLoginCode of the emailService.js variant: run the 1-minute
rate query and the 1-hour lockout query, throw AccountLocked once the
unused count has reached 10, and only otherwise report whether the rate
window is clear. -/
def canRequestLoginCode (rows : List LoginAttempt) (now : Nat) (email : String) :
    Except RateCheckError Bool :=
  let recentCount := countRecentAttempts rows now email
  let failedCount := countRecentFailedAttempts rows now email
  if 10 ≤ failedCount then .error .accountLocked
  else .ok (decide (recentCount = 0))

end EmailServiceJs

namespace AuthServiceJs

/-- generateLoginCode of src/services/authService.js: the value of
Math.floor(100000 + Math.random() * 900000), drawn from the general-purpose
PRNG behind Math.random. -/
def loginCodeValue (src : RandomSources) : Nat := 100000 + src.mathRandom.val

/-- generateLoginCode of the authService.js variant: the Math.random draw
printed with toString. -/
def generateLoginCode (src : RandomSources) : String :=
  natDecimalRepr (loginCodeValue src)

/-- canRequestLoginCode of authService.js: only the 1-minute rate query; no
lockout query exists in this variant. -/
def canRequestLoginCode (rows : List LoginAttempt) (now : Nat) (email : String) : Bool :=
  decide (countRecentAttempts rows now email = 0)

/-- Candidate filter of the verifyLoginCode query in authService.js: the
where-clause matches the stored code against the supplied one with ordinary
SQL text equality. -/
def isCandidate (now : Nat) (email code : String) (a : LoginAttempt) : Bool :=
  decide (a.email = email) && sqlCodeEq a.code code && !a.is_used &&
    withinLast now 600 a.created_at

/-- verifyLoginCode of authService.js: select the newest unused unexpired
row matching email and code (limit 1) and mark it used; no row commits with
a null result. -/
def verifyLoginCode (rows : List LoginAttempt) (now : Nat) (email code : String) :
    Option LoginAttempt × List LoginAttempt :=
  match List.insertionSort newestFirst (rows.filter (isCandidate now email code)) with
  | [] => (none, rows)
  | a :: _ => (some a, markUsed rows a.attemptid)

/-- Byte positions the SQL text equality code = $2 of one authService.js
verifyLoginCode call examines: the equality is evaluated against the stored
code of each attempt row carrying the email. -/
def verifyCost (rows : List LoginAttempt) (email code : String) : Nat :=
  ((rows.filter fun a => decide (a.email = email)).map
    fun a => sqlCodeEqCost a.code code).sum

end AuthServiceJs

/-- Outcomes of the requestLogin HTTP handler: 429 rate limit exceeded, 200
login code sent (with its 10-minute expiry timestamp), 500 failed to send
login code. -/
inductive RequestLoginResponse where
  | rateLimited
  | sent (expiresAtMs : Nat)
  | sendFailed (msg : String)
  deriving DecidableEq, Repr

/-- storeLoginAttempt: insert into login_attempts (email, code) values
($1, $2) returning attemptid; the new row is unused and stamped now. -/
def storeLoginAttempt (db : AttemptDB) (now : Nat) (email code : String) :
    Nat × AttemptDB :=
  (db.nextId,
   { rows := db.rows ++
       [{ attemptid := db.nextId, email := email, code := code,
          created_at := now, is_used := false }],
     nextId := db.nextId + 1 })

/-- requestLogin HTTP handler (authController), composed with the
authService.js service the controller imports: rate check, then generate and
store the code, then send the email.  emailOk abstracts whether the external
delivery succeeds; the attempt row is stored either way, and the 429
response is the same fixed body in every rate-limited case. -/
def requestLogin (db : AttemptDB) (now : Nat) (email code : String) (emailOk : Bool) :
    RequestLoginResponse × AttemptDB :=
  if AuthServiceJs.canRequestLoginCode db.rows now email then
    let db2 := (storeLoginAttempt db now email code).2
    if emailOk then (.sent (1000 * now + 600000), db2)
    else (.sendFailed "Failed to send login code", db2)
  else (.rateLimited, db)

/-- Outcomes of the verifyLogin HTTP handler: 401 invalid or expired login
code, 500 login verification failed, 200 success. -/
inductive VerifyLoginResponse where
  | invalidOrExpired
  | serverError (msg : String)
  | success (r : LoginResult)
  deriving DecidableEq, Repr

/-- Discriminator for the 200 outcome of verifyLogin. -/
def VerifyLoginResponse.isSuccess : VerifyLoginResponse → Bool
  | .success _ => true
  | _ => false

/-- Combined persistent state touched by the verifyLogin handler. -/
structure SystemState where
  attempts : List LoginAttempt
  accountDb : AccountDB
  deriving DecidableEq, Repr

/-- verifyLogin HTTP handler: verify the code with the scan-all-candidates
verifyLoginCode, then complete the login; a null match is the 401
InvalidOrExpiredCode outcome and a thrown storage error is a 500. -/
def verifyLogin (secret now : Nat) (st : SystemState) (email code : String) :
    VerifyLoginResponse × SystemState :=
  match EmailServiceJs.verifyLoginCode st.attempts now email code with
  | .error e => (.serverError e, st)
  | .ok (none, rows2) => (.invalidOrExpired, { st with attempts := rows2 })
  | .ok (some _, rows2) =>
    match completeLogin secret now st.accountDb email with
    | .error e => (.serverError e, { st with attempts := rows2 })
    | .ok (r, db2) => (.success r, { attempts := rows2, accountDb := db2 })

/-- Invariant enforced by the UNIQUE constraint of the accounts table: no
two rows carry the same email. -/
def uniqueEmails (accounts : List Account) : Prop :=
  accounts.Pairwise fun a b => a.email ≠ b.email

/-- Two outstanding 6-digit attempts for one email, newest one first. -/
def sampleRows : List LoginAttempt :=
  [{ attemptid := 1, email := "a@x.com", code := "123456", created_at := 1000,
     is_used := false },
   { attemptid := 2, email := "a@x.com", code := "222222", created_at := 900,
     is_used := false }]

/-- State with two outstanding unused attempts for one email carrying the
same 6-digit code, and an empty accounts table. -/
def dupCodeState : SystemState :=
  { attempts :=
      [{ attemptid := 1, email := "a@x.com", code := "123456", created_at := 1000,
         is_used := false },
       { attemptid := 2, email := "a@x.com", code := "123456", created_at := 900,
         is_used := false }],
    accountDb := { accounts := [], nextId := 1 } }

/-- Store with ten unused attempts for one email created about two minutes
ago: within the one-hour lockout window, outside the one-minute rate
window. -/
def lockedDb : AttemptDB :=
  { rows := (List.range 10).map fun i =>
      { attemptid := i + 1, email := "a@x.com", code := "111111",
        created_at := 9880, is_used := false },
    nextId := 11 }

/-- Source whose CSPRNG and PRNG draws are both 0. -/
def srcCrypto0Math0 : RandomSources := ⟨⟨0, by omega⟩, ⟨0, by omega⟩⟩

/-- Source whose CSPRNG draw is 1 and whose PRNG draw is 0. -/
def srcCrypto1Math0 : RandomSources := ⟨⟨1, by omega⟩, ⟨0, by omega⟩⟩

/-- Source whose CSPRNG draw is 0 and whose PRNG draw is 1. -/
def srcCrypto0Math1 : RandomSources := ⟨⟨0, by omega⟩, ⟨1, by omega⟩⟩

/-- Payload of a session token whose embedded expiry lies in the past of the
verification instants used below. -/
def expiredPayload : JwtPayload :=
  { accountId := 1, email := "a@x.com", iat := 0, exp := 10, nbf := none,
    iss := "chatterbox-app" }

instance instDecidableEqExcept {ε α : Type} [DecidableEq ε] [DecidableEq α] :
    DecidableEq (Except ε α)
  | .error e, .error f =>
    if h : e = f then .isTrue (by rw [h]) else .isFalse (by intro hc; cases hc; exact h rfl)
  | .error _, .ok _ => .isFalse (by intro hc; cases hc)
  | .ok _, .error _ => .isFalse (by intro hc; cases hc)
  | .ok a, .ok b =>
    if h : a = b then .isTrue (by rw [h]) else .isFalse (by intro hc; cases hc; exact h rfl)

theorem string_eq_iff_data {s t : String} : s = t ↔ s.data = t.data :=
  ⟨fun h => h ▸ rfl, String.ext⟩

theorem ctRun_snd (a : List Char) : ∀ b : List Char, (ctRun a b).2 = min a.length b.length := by
  induction a with
  | nil => intro b; cases b <;> simp [ctRun]
  | cons x xs ih =>
    intro b
    cases b with
    | nil => simp [ctRun]
    | cons y ys =>
      have := ih ys
      simp only [ctRun, List.length_cons]
      omega

theorem ctRun_fst (a : List Char) :
    ∀ b : List Char, a.length = b.length → (ctRun a b).1 = decide (a = b) := by
  induction a with
  | nil =>
    intro b h
    cases b with
    | nil => simp [ctRun]
    | cons y ys => simp at h
  | cons x xs ih =>
    intro b h
    cases b with
    | nil => simp at h
    | cons y ys =>
      have hx := ih ys (by simpa using h)
      by_cases h1 : x = y
      · by_cases h2 : xs = ys
        · subst h1; subst h2; simp [ctRun, hx]
        · simp [ctRun, hx, h1, h2]
      · simp [ctRun, h1]

theorem timingSafeEqual_eq {a b : List Char} (h : a.length = b.length) :
    timingSafeEqual a b = .ok (decide (a = b)) := by
  simp [timingSafeEqual, h, ctRun_fst a b h]

theorem timingSafeEqual_err {a b : List Char} (h : a.length ≠ b.length) :
    timingSafeEqual a b =
      .error "RangeError: Input buffers must have the same byte length" := by
  simp [timingSafeEqual, h]

theorem timingSafeEqualCost_eq {a b : List Char} (h : a.length = b.length) :
    timingSafeEqualCost a b = a.length := by
  simp [timingSafeEqualCost, ctRun_snd, h]

theorem data_length_eq (s : String) : s.data.length = s.length := rfl

namespace EmailServiceJs

theorem findMatch_eq_find? (code : String) (l : List LoginAttempt)
    (h : ∀ a ∈ l, a.code.length = code.length) :
    findMatch code l = .ok (l.find? fun a => decide (a.code = code)) := by
  induction l with
  | nil => simp [findMatch, List.find?]
  | cons a rest ih =>
    have ha : a.code.data.length = code.data.length := by
      rw [data_length_eq, data_length_eq]; exact h a (List.mem_cons_self a rest)
    have hdec : decide (a.code.data = code.data) = decide (a.code = code) :=
      decide_eq_decide.mpr string_eq_iff_data.symm
    by_cases hc : a.code = code
    · have hts : timingSafeEqual a.code.data code.data = .ok true := by
        rw [timingSafeEqual_eq ha, hdec]; simp [hc]
      rw [List.find?_cons_of_pos rest (by simp [hc])]
      simp only [findMatch, hts]
    · have hts : timingSafeEqual a.code.data code.data = .ok false := by
        rw [timingSafeEqual_eq ha, hdec]; simp [hc]
      have hrest := ih fun b hb => h b (List.mem_cons_of_mem a hb)
      rw [List.find?_cons_of_neg rest (by simp [hc])]
      simp only [findMatch, hts, hrest]

theorem mem_recentValidAttempts {rows : List LoginAttempt} {now : Nat} {email : String}
    {a : LoginAttempt} :
    a ∈ recentValidAttempts rows now email ↔
      a ∈ rows ∧ isCandidate now email a = true := by
  unfold recentValidAttempts
  rw [(List.perm_insertionSort newestFirst _).mem_iff, List.mem_filter]

theorem sorted_recentValidAttempts (rows : List LoginAttempt) (now : Nat) (email : String) :
    (recentValidAttempts rows now email).Sorted newestFirst :=
  List.sorted_insertionSort newestFirst _

theorem verifyLoginCode_eq_find (rows : List LoginAttempt) (now : Nat) (email code : String)
    (hlen : ∀ a ∈ rows, isCandidate now email a = true → a.code.length = code.length) :
    verifyLoginCode rows now email code =
      match (recentValidAttempts rows now email).find? (fun a => decide (a.code = code)) with
      | none => .ok (none, rows)
      | some m => .ok (some m, markUsed rows m.attemptid) := by
  have hl : ∀ a ∈ recentValidAttempts rows now email, a.code.length = code.length := by
    intro a ha
    obtain ⟨h1, h2⟩ := mem_recentValidAttempts.mp ha
    exact hlen a h1 h2
  unfold verifyLoginCode
  rw [findMatch_eq_find? code _ hl]
  cases (recentValidAttempts rows now email).find? (fun a => decide (a.code = code)) <;> rfl

end EmailServiceJs

theorem find?_sorted_newest {l : List LoginAttempt} (hs : l.Sorted newestFirst)
    {p : LoginAttempt → Bool} {a : LoginAttempt} (hf : l.find? p = some a) :
    ∀ b ∈ l, p b = true → b.created_at ≤ a.created_at := by
  induction l with
  | nil => simp at hf
  | cons h t ih =>
    intro b hb hpb
    by_cases hph : p h = true
    · rw [List.find?_cons_of_pos t hph] at hf
      cases hf
      rcases List.mem_cons.mp hb with rfl | hbt
      · exact Nat.le_refl _
      · exact List.rel_of_sorted_cons hs b hbt
    · rw [List.find?_cons_of_neg t hph] at hf
      rcases List.mem_cons.mp hb with rfl | hbt
      · exact absurd hpb hph
      · exact ih (List.Sorted.of_cons hs) hf b hbt hpb

theorem markUsed_mem {rows : List LoginAttempt} {id : Nat} {b : LoginAttempt}
    (hb : b ∈ markUsed rows id) :
    ∃ a ∈ rows, (a.attemptid = id ∧ b = { a with is_used := true }) ∨
      (a.attemptid ≠ id ∧ b = a) := by
  obtain ⟨a, ha, rfl⟩ := List.mem_map.mp hb
  refine ⟨a, ha, ?_⟩
  by_cases h : a.attemptid = id <;> simp [h]

theorem markUsed_used {rows : List LoginAttempt} {id : Nat} :
    ∀ b ∈ markUsed rows id, b.attemptid = id → b.is_used = true := by
  intro b hb hid
  obtain ⟨a, _, h | h⟩ := markUsed_mem hb
  · rw [h.2]
  · exact absurd (h.2 ▸ hid) h.1

namespace EmailServiceJs

theorem isCandidate_iff {now : Nat} {email : String} {a : LoginAttempt} :
    isCandidate now email a = true ↔
      a.email = email ∧ a.is_used = false ∧ now - 600 < a.created_at := by
  simp [isCandidate, withinLast, and_assoc]

end EmailServiceJs

theorem completeLogin_ok (secret now : Nat) (db : AccountDB) (email : String) :
    ∃ r db2, completeLogin secret now db email = .ok (r, db2) := by
  unfold completeLogin
  cases hf : findAccountByEmail db.accounts email with
  | some acct => exact ⟨_, _, rfl⟩
  | none =>
    have hnone : ∀ a ∈ db.accounts, ¬(decide (a.email = email) = true) :=
      List.find?_eq_none.mp hf
    have hany : (db.accounts.any fun a => decide (a.email = email)) = false := by
      rw [List.any_eq_false]
      exact hnone
    unfold createAccount
    simp [hany]

/-- Core case analysis of the scan-all-candidates verifyLoginCode: the
no-match case commits with null and the untouched table, and the match case
consumes the newest candidate whose stored code equals the supplied code. -/
theorem verifyMatchCases (rows : List LoginAttempt) (now : Nat) (email code : String)
    (hlen : ∀ a ∈ rows, EmailServiceJs.isCandidate now email a = true →
      a.code.length = code.length) :
    ((∀ a ∈ rows, EmailServiceJs.isCandidate now email a = true → a.code ≠ code) →
      EmailServiceJs.verifyLoginCode rows now email code = .ok (none, rows))
    ∧ (∀ a ∈ rows, EmailServiceJs.isCandidate now email a = true → a.code = code →
      ∃ m, EmailServiceJs.verifyLoginCode rows now email code =
          .ok (some m, markUsed rows m.attemptid)
        ∧ m ∈ rows ∧ EmailServiceJs.isCandidate now email m = true ∧ m.code = code
        ∧ ∀ b ∈ rows, EmailServiceJs.isCandidate now email b = true → b.code = code →
            b.created_at ≤ m.created_at) := by
  have hkey := EmailServiceJs.verifyLoginCode_eq_find rows now email code hlen
  constructor
  · intro hno
    have hfind : (EmailServiceJs.recentValidAttempts rows now email).find?
        (fun a => decide (a.code = code)) = none := by
      rw [List.find?_eq_none]
      intro x hx
      obtain ⟨hx1, hx2⟩ := EmailServiceJs.mem_recentValidAttempts.mp hx
      simpa using hno x hx1 hx2
    rw [hkey, hfind]
  · intro a ha hc hcode
    have hmem : a ∈ EmailServiceJs.recentValidAttempts rows now email :=
      EmailServiceJs.mem_recentValidAttempts.mpr ⟨ha, hc⟩
    cases hfind : (EmailServiceJs.recentValidAttempts rows now email).find?
        (fun x => decide (x.code = code)) with
    | none =>
      have := List.find?_eq_none.mp hfind a hmem
      exact absurd hcode (by simpa using this)
    | some m =>
      have hm1 : m ∈ EmailServiceJs.recentValidAttempts rows now email :=
        List.mem_of_find?_eq_some hfind
      obtain ⟨hm2, hm3⟩ := EmailServiceJs.mem_recentValidAttempts.mp hm1
      have hm4 : m.code = code := by simpa using List.find?_some hfind
      refine ⟨m, ?_, hm2, hm3, hm4, ?_⟩
      · rw [hkey, hfind]
      · intro b hb hbc hbcode
        have hbmem : b ∈ EmailServiceJs.recentValidAttempts rows now email :=
          EmailServiceJs.mem_recentValidAttempts.mpr ⟨hb, hbc⟩
        exact find?_sorted_newest
          (EmailServiceJs.sorted_recentValidAttempts rows now email)
          hfind b hbmem (by simpa using hbcode)

/-- C1: verifyAndConsume (the scan-all-candidates verifyLoginCode of the
emailService.js variant) is one atomic transaction that considers exactly the
unused attempts of the email created within the last 10 minutes, ordered
newest first: when some candidate's stored code equals the supplied code it
returns the newest such candidate, marking exactly that attempt used within
the same transition, and when no candidate matches it returns null and
leaves every attempt row unchanged.  The hypothesis states that the stored
candidate codes have the byte length of the supplied code (all codes are
6-digit strings), so the constant-time comparison does not throw. -/
theorem c1_verifyAndConsume_spec (rows : List LoginAttempt) (now : Nat) (email code : String)
    (hlen : ∀ a ∈ rows, EmailServiceJs.isCandidate now email a = true →
      a.code.length = code.length) :
    ((∀ a ∈ rows, EmailServiceJs.isCandidate now email a = true → a.code ≠ code) →
      EmailServiceJs.verifyLoginCode rows now email code = .ok (none, rows))
    ∧ (∀ a ∈ rows, EmailServiceJs.isCandidate now email a = true → a.code = code →
      ∃ m, EmailServiceJs.verifyLoginCode rows now email code =
          .ok (some m, markUsed rows m.attemptid)
        ∧ m ∈ rows ∧ EmailServiceJs.isCandidate now email m = true ∧ m.code = code
        ∧ ∀ b ∈ rows, EmailServiceJs.isCandidate now email b = true → b.code = code →
            b.created_at ≤ m.created_at) :=
  verifyMatchCases rows now email code hlen

/-- Witness for C1 at a concrete store: a supplied code matching no
candidate commits with a null result and the untouched table. -/
theorem c1_verifyAndConsume_witness :
    EmailServiceJs.verifyLoginCode sampleRows 1200 "a@x.com" "999999" =
      .ok (none, sampleRows) :=
  (c1_verifyAndConsume_spec sampleRows 1200 "a@x.com" "999999" (by decide)).1 (by decide)

/-- C10: when at least one unused, unexpired attempt exists for the email
and the supplied code's byte length differs from the stored 6-byte codes,
verifyLoginCode does not return null: crypto.timingSafeEqual throws on the
length mismatch inside the transaction, the transaction rolls back (the
table state survives unchanged), and the call surfaces the storage-style
error; only the HTTP-layer 6-digit format check rejects such inputs. -/
theorem c10_length_mismatch_throws (rows : List LoginAttempt) (now : Nat) (email code : String)
    (hex : ∃ a ∈ rows, EmailServiceJs.isCandidate now email a = true)
    (hlen6 : ∀ a ∈ rows, EmailServiceJs.isCandidate now email a = true → a.code.length = 6)
    (hcode : code.length ≠ 6) :
    EmailServiceJs.verifyLoginCode rows now email code =
      .error "database error verifying login code"
    ∧ EmailServiceJs.verifyLoginCodeState rows now email code = rows
    ∧ validateLoginCode code = false := by
  obtain ⟨a, ha, hca⟩ := hex
  have hmem : a ∈ EmailServiceJs.recentValidAttempts rows now email :=
    EmailServiceJs.mem_recentValidAttempts.mpr ⟨ha, hca⟩
  cases hl : EmailServiceJs.recentValidAttempts rows now email with
  | nil => rw [hl] at hmem; simp at hmem
  | cons h t =>
    have hh : h ∈ EmailServiceJs.recentValidAttempts rows now email := by
      rw [hl]; exact List.mem_cons_self h t
    obtain ⟨hh1, hh2⟩ := EmailServiceJs.mem_recentValidAttempts.mp hh
    have hh6 : h.code.length = 6 := hlen6 h hh1 hh2
    have hne : h.code.data.length ≠ code.data.length := by
      rw [data_length_eq, data_length_eq, hh6]
      exact fun hx => hcode hx.symm
    have hfm : EmailServiceJs.findMatch code (h :: t) =
        .error "RangeError: Input buffers must have the same byte length" := by
      simp only [EmailServiceJs.findMatch, timingSafeEqual_err hne]
    refine ⟨?_, ?_, ?_⟩
    · unfold EmailServiceJs.verifyLoginCode
      rw [hl, hfm]
    · unfold EmailServiceJs.verifyLoginCodeState EmailServiceJs.verifyLoginCode
      rw [hl, hfm]
    · simp [validateLoginCode, hcode]

/-- Witness for C10 at a concrete store: a 5-character supplied code against
an outstanding 6-digit attempt surfaces the storage error, the table is
untouched, and the HTTP-layer format check rejects the code. -/
theorem c10_length_mismatch_witness :
    EmailServiceJs.verifyLoginCode sampleRows 1200 "a@x.com" "12345" =
      .error "database error verifying login code"
    ∧ EmailServiceJs.verifyLoginCodeState sampleRows 1200 "a@x.com" "12345" = sampleRows
    ∧ validateLoginCode "12345" = false :=
  c10_length_mismatch_throws sampleRows 1200 "a@x.com" "12345"
    (by decide) (by decide) (by decide)

/-- Counterexample to C2 as stated: when two outstanding unused unexpired
attempts for the email carry the same code, the first verifyLogin succeeds
and the second verifyLogin call with the same email and code succeeds as
well, consuming the second attempt, instead of failing with
InvalidOrExpiredCode. -/
theorem c2_second_call_succeeds_counterexample :
    (verifyLogin 7 1200 dupCodeState "a@x.com" "123456").1.isSuccess = true
    ∧ (verifyLogin 7 1200
        (verifyLogin 7 1200 dupCodeState "a@x.com" "123456").2
        "a@x.com" "123456").1.isSuccess = true
    ∧ (verifyLogin 7 1200
        (verifyLogin 7 1200 dupCodeState "a@x.com" "123456").2
        "a@x.com" "123456").1 ≠ VerifyLoginResponse.invalidOrExpired := by
  refine ⟨by decide, by decide, by decide⟩

/-- C2 amended: a verifyLogin call with the correct, unexpired, unused code
succeeds, and after that success the matched attempt's used flag is true and
stays true, so a second verifyLogin call with the same email and code fails
with InvalidOrExpiredCode - provided the matched attempt is the only attempt
for that email carrying that code (distinct attempt rows may carry identical
codes, and then the second call consumes the other row, as the
counterexample shows). -/
theorem c2_single_use_amended (secret now1 now2 : Nat) (st : SystemState)
    (email code : String) (a : LoginAttempt)
    (ha : a ∈ st.attempts) (hemail : a.email = email) (hcode : a.code = code)
    (hunused : a.is_used = false) (hfresh : now1 - 600 < a.created_at)
    (huniq : ∀ b ∈ st.attempts, b.email = email → b.code = code → b = a)
    (hlen : ∀ b ∈ st.attempts, b.code.length = code.length) :
    (verifyLogin secret now1 st email code).1.isSuccess = true
    ∧ (∀ b ∈ (verifyLogin secret now1 st email code).2.attempts,
        b.attemptid = a.attemptid → b.is_used = true)
    ∧ (verifyLogin secret now2 (verifyLogin secret now1 st email code).2
        email code).1 = .invalidOrExpired
    ∧ (∀ b ∈ (verifyLogin secret now2 (verifyLogin secret now1 st email code).2
        email code).2.attempts,
        b.attemptid = a.attemptid → b.is_used = true) := by
  have hca : EmailServiceJs.isCandidate now1 email a = true :=
    EmailServiceJs.isCandidate_iff.mpr ⟨hemail, hunused, hfresh⟩
  obtain ⟨m, hmeq, hm2, hm3, hm4, _⟩ :=
    (verifyMatchCases st.attempts now1 email code fun b hb _ => hlen b hb).2 a ha hca hcode
  have hma : m = a := huniq m hm2 (EmailServiceJs.isCandidate_iff.mp hm3).1 hm4
  rw [hma] at hmeq
  obtain ⟨r, db2, hcl⟩ := completeLogin_ok secret now1 st.accountDb email
  have hfirst : verifyLogin secret now1 st email code =
      (.success r, ⟨markUsed st.attempts a.attemptid, db2⟩) := by
    unfold verifyLogin
    rw [hmeq, hcl]
  have hlen2 : ∀ b ∈ markUsed st.attempts a.attemptid, b.code.length = code.length := by
    intro b hb
    obtain ⟨a0, ha0, h | h⟩ := markUsed_mem hb
    · rw [h.2]; exact hlen a0 ha0
    · rw [h.2]; exact hlen a0 ha0
  have hno : ∀ b ∈ markUsed st.attempts a.attemptid,
      EmailServiceJs.isCandidate now2 email b = true → b.code ≠ code := by
    intro b hb hcb hbc
    obtain ⟨hb1, hb2, _⟩ := EmailServiceJs.isCandidate_iff.mp hcb
    obtain ⟨a0, ha0, h | h⟩ := markUsed_mem hb
    · rw [h.2] at hb2; simp at hb2
    · have : a0 = a := huniq a0 ha0 (h.2 ▸ hb1) (h.2 ▸ hbc)
      exact h.1 (this ▸ rfl)
  have hsecondCode : EmailServiceJs.verifyLoginCode (markUsed st.attempts a.attemptid)
      now2 email code = .ok (none, markUsed st.attempts a.attemptid) :=
    (verifyMatchCases (markUsed st.attempts a.attemptid) now2 email code
      fun b hb _ => hlen2 b hb).1 hno
  have hsecond : verifyLogin secret now2 (verifyLogin secret now1 st email code).2
      email code = (.invalidOrExpired, ⟨markUsed st.attempts a.attemptid, db2⟩) := by
    rw [hfirst]
    unfold verifyLogin
    rw [hsecondCode]
  refine ⟨by rw [hfirst]; rfl, ?_, by rw [hsecond], ?_⟩
  · rw [hfirst]
    exact markUsed_used
  · rw [hsecond]
    exact markUsed_used

/-- Witness for the amended C2 at a concrete store with a unique code per
attempt: the first call succeeds, the matched row stays used, and the second
call fails with InvalidOrExpiredCode. -/
theorem c2_single_use_witness :
    (verifyLogin 7 1200 { attempts := sampleRows, accountDb := { accounts := [], nextId := 1 } }
      "a@x.com" "123456").1.isSuccess = true
    ∧ (∀ b ∈ (verifyLogin 7 1200
        { attempts := sampleRows, accountDb := { accounts := [], nextId := 1 } }
        "a@x.com" "123456").2.attempts,
        b.attemptid = 1 → b.is_used = true)
    ∧ (verifyLogin 7 1300 (verifyLogin 7 1200
        { attempts := sampleRows, accountDb := { accounts := [], nextId := 1 } }
        "a@x.com" "123456").2 "a@x.com" "123456").1 = .invalidOrExpired
    ∧ (∀ b ∈ (verifyLogin 7 1300 (verifyLogin 7 1200
        { attempts := sampleRows, accountDb := { accounts := [], nextId := 1 } }
        "a@x.com" "123456").2 "a@x.com" "123456").2.attempts,
        b.attemptid = 1 → b.is_used = true) :=
  c2_single_use_amended 7 1200 1300
    { attempts := sampleRows, accountDb := { accounts := [], nextId := 1 } }
    "a@x.com" "123456"
    { attemptid := 1, email := "a@x.com", code := "123456", created_at := 1000,
      is_used := false }
    (by decide) (by decide) (by decide) (by decide) (by decide) (by decide) (by decide)

/-- Scan cost over a candidate list in which no stored code matches the
supplied one and every stored code has its byte length: every candidate is
compared over all byte positions, so the total is the code length times the
number of candidates, independently of the byte contents. -/
theorem scanCost_const (code : String) (l : List LoginAttempt)
    (hlen : ∀ a ∈ l, a.code.length = code.length)
    (hno : ∀ a ∈ l, a.code ≠ code) :
    EmailServiceJs.scanCost code l = code.length * l.length := by
  induction l with
  | nil => simp [EmailServiceJs.scanCost]
  | cons a rest ih =>
    have ha : a.code.data.length = code.data.length := by
      rw [data_length_eq, data_length_eq]
      exact hlen a (List.mem_cons_self a rest)
    have hne : a.code.data ≠ code.data :=
      fun h => hno a (List.mem_cons_self a rest) (string_eq_iff_data.mpr h)
    have hct : (ctRun a.code.data code.data).1 = false := by
      rw [ctRun_fst _ _ ha]
      simpa using hne
    have hrest := ih (fun b hb => hlen b (List.mem_cons_of_mem a hb))
      (fun b hb => hno b (List.mem_cons_of_mem a hb))
    rw [EmailServiceJs.scanCost, if_pos ha, hct, if_neg (by simp), hrest,
      timingSafeEqualCost_eq ha, data_length_eq, hlen a (List.mem_cons_self a rest),
      List.length_cons, Nat.mul_succ, Nat.add_comm]

/-- Counterexample to C3 as stated: the verifyLoginCode of the imported
authService.js variant compares codes with ordinary SQL text equality, whose
execution cost depends on where the supplied code first differs from the
stored one.  Two failed verifications (both return null) against the same
store examine a different number of byte positions. -/
theorem c3_sql_equality_counterexample :
    (AuthServiceJs.verifyLoginCode sampleRows 1200 "a@x.com" "023456").1 = none
    ∧ (AuthServiceJs.verifyLoginCode sampleRows 1200 "a@x.com" "123450").1 = none
    ∧ AuthServiceJs.verifyCost sampleRows "a@x.com" "023456" ≠
        AuthServiceJs.verifyCost sampleRows "a@x.com" "123450" :=
  ⟨by decide, by decide, by decide⟩

/-- C3 amended: in the emailService.js variant the comparison of the
supplied code against each candidate's stored code is a constant-time byte
comparison - the number of byte positions examined by one comparison equals
the buffer length whatever the contents, and two non-matching supplied codes
of the stored length make verifyLoginCode examine exactly the same number of
byte positions; the authService.js variant the controllers import instead
compares codes with ordinary SQL text equality, refuted above. -/
theorem c3_constant_time_amended :
    (∀ x y : List Char, x.length = y.length → timingSafeEqualCost x y = x.length)
    ∧ (∀ (rows : List LoginAttempt) (now : Nat) (email c1 c2 : String),
        c1.length = c2.length →
        (∀ a ∈ rows, EmailServiceJs.isCandidate now email a = true →
          a.code.length = c1.length ∧ a.code ≠ c1 ∧ a.code ≠ c2) →
        EmailServiceJs.verifyCost rows now email c1 =
          EmailServiceJs.verifyCost rows now email c2) := by
  constructor
  · exact fun x y h => timingSafeEqualCost_eq h
  · intro rows now email c1 c2 h12 hcand
    have hprops : ∀ a ∈ EmailServiceJs.recentValidAttempts rows now email,
        a.code.length = c1.length ∧ a.code ≠ c1 ∧ a.code ≠ c2 := by
      intro a ha
      obtain ⟨h1, h2⟩ := EmailServiceJs.mem_recentValidAttempts.mp ha
      exact hcand a h1 h2
    unfold EmailServiceJs.verifyCost
    rw [scanCost_const c1 _ (fun a ha => (hprops a ha).1)
        (fun a ha => (hprops a ha).2.1),
      scanCost_const c2 _ (fun a ha => h12 ▸ (hprops a ha).1)
        (fun a ha => (hprops a ha).2.2), h12]

/-- Witness for the amended C3 at a concrete store: two differing wrong
codes are scanned at identical cost by the constant-time variant. -/
theorem c3_constant_time_witness :
    EmailServiceJs.verifyCost sampleRows 1200 "a@x.com" "999999" =
      EmailServiceJs.verifyCost sampleRows 1200 "a@x.com" "888888" :=
  c3_constant_time_amended.2 sampleRows 1200 "a@x.com" "999999" "888888"
    (by decide) (by decide)

/-- Counterexample to C4 as stated: with exactly ten unused attempts of the
last hour on record, the next requestLogin through the imported
authService.js service succeeds and issues a fresh code instead of failing
with AccountLocked; only the emailService.js variant of the store signals
AccountLocked on the same state. -/
theorem c4_no_lockout_counterexample :
    countRecentFailedAttempts lockedDb.rows 10000 "a@x.com" = 10
    ∧ (requestLogin lockedDb 10000 "a@x.com" "123456" true).1 =
        .sent 10600000
    ∧ EmailServiceJs.canRequestLoginCode lockedDb.rows 10000 "a@x.com" =
        .error .accountLocked :=
  ⟨by decide, by decide, by decide⟩

/-- C4 amended: once the count of unused attempts of the last hour reaches
10, the emailService.js variant's canRequestLoginCode signals AccountLocked
before any rate-limit result is reported (the recent-attempt count is not
consulted); the authService.js variant that the requestLogin controller
imports performs no lockout check at all, so whenever the one-minute window
is clear the handler stores a new attempt and never reports AccountLocked. -/
theorem c4_lockout_amended :
    (∀ (rows : List LoginAttempt) (now : Nat) (email : String),
      10 ≤ countRecentFailedAttempts rows now email →
      EmailServiceJs.canRequestLoginCode rows now email = .error .accountLocked)
    ∧ (∀ (db : AttemptDB) (now : Nat) (email code : String) (emailOk : Bool),
        countRecentAttempts db.rows now email = 0 →
        (requestLogin db now email code emailOk).1 ≠ .rateLimited
        ∧ (requestLogin db now email code emailOk).2.rows.length =
            db.rows.length + 1) := by
  constructor
  · intro rows now email h
    unfold EmailServiceJs.canRequestLoginCode
    simp [h]
  · intro db now email code emailOk h
    have hcan : AuthServiceJs.canRequestLoginCode db.rows now email = true := by
      simp [AuthServiceJs.canRequestLoginCode, h]
    unfold requestLogin
    cases emailOk <;> simp [hcan, storeLoginAttempt]

/-- Witness for the amended C4 at the concrete locked store: the enhanced
store signals AccountLocked while the deployed handler proceeds. -/
theorem c4_lockout_witness :
    EmailServiceJs.canRequestLoginCode lockedDb.rows 10000 "a@x.com" =
      .error .accountLocked
    ∧ (requestLogin lockedDb 10000 "a@x.com" "123456" true).1 ≠ .rateLimited :=
  ⟨c4_lockout_amended.1 lockedDb.rows 10000 "a@x.com" (by decide),
   (c4_lockout_amended.2 lockedDb 10000 "a@x.com" "123456" true (by decide)).1⟩

/-- C5: when a requestLogin call has recorded an attempt for the email at
time t0, any second requestLogin for the same email within one minute of t0
fails with RateLimited and leaves the store unchanged; the 429 outcome is
the same fixed response whatever code the second call carries and whether or
not either email delivery succeeded, so it reveals nothing about the earlier
request.  The hypothesis on the first call states that its rate check
passed, which is exactly when an attempt row is recorded. -/
theorem c5_rate_limited (db : AttemptDB) (t0 t1 : Nat) (email code code2 : String)
    (ok1 ok2 : Bool) (hpos : 0 < t0) (hwin : t1 < t0 + 60)
    (hallow : AuthServiceJs.canRequestLoginCode db.rows t0 email = true) :
    requestLogin (requestLogin db t0 email code ok1).2 t1 email code2 ok2 =
      (.rateLimited, (requestLogin db t0 email code ok1).2) := by
  have hdb1 : (requestLogin db t0 email code ok1).2 =
      (storeLoginAttempt db t0 email code).2 := by
    unfold requestLogin
    cases ok1 <;> simp [hallow]
  have hmem : (⟨db.nextId, email, code, t0, false⟩ : LoginAttempt) ∈
      (storeLoginAttempt db t0 email code).2.rows := by
    simp [storeLoginAttempt]
  have hcount : countRecentAttempts (storeLoginAttempt db t0 email code).2.rows
      t1 email ≠ 0 := by
    intro h0
    have hp : (fun a : LoginAttempt =>
        decide (a.email = email) && withinLast t1 60 a.created_at)
          (⟨db.nextId, email, code, t0, false⟩ : LoginAttempt) = true := by
      simp [withinLast]
      omega
    have hmemf : (⟨db.nextId, email, code, t0, false⟩ : LoginAttempt) ∈
        (storeLoginAttempt db t0 email code).2.rows.filter
          (fun a => decide (a.email = email) && withinLast t1 60 a.created_at) :=
      List.mem_filter.mpr ⟨hmem, hp⟩
    unfold countRecentAttempts at h0
    rw [List.length_eq_zero] at h0
    rw [h0] at hmemf
    simp at hmemf
  have hcan2 : AuthServiceJs.canRequestLoginCode
      (storeLoginAttempt db t0 email code).2.rows t1 email = false := by
    simp [AuthServiceJs.canRequestLoginCode, hcount]
  rw [hdb1]
  unfold requestLogin
  simp [hcan2]

/-- Witness for C5 at a concrete empty store: a second request 30 seconds
after the first is rate limited without touching the store. -/
theorem c5_rate_limited_witness :
    requestLogin (requestLogin { rows := [], nextId := 1 } 100 "a@x.com" "123456" true).2
        130 "a@x.com" "654321" true =
      (.rateLimited, (requestLogin { rows := [], nextId := 1 } 100 "a@x.com" "123456" true).2) :=
  c5_rate_limited { rows := [], nextId := 1 } 100 130 "a@x.com" "123456" "654321"
    true true (by decide) (by decide) (by decide)

theorem decDigitsRev_eq_digits : ∀ fuel n : Nat, n ≤ fuel →
    decDigitsRev fuel n = Nat.digits 10 n := by
  intro fuel
  induction fuel with
  | zero =>
    intro n h
    interval_cases n
    simp [decDigitsRev]
  | succ f ih =>
    intro n h
    match n with
    | 0 => simp [decDigitsRev]
    | m + 1 =>
      rw [Nat.digits_def' (by norm_num : (1 : ℕ) < 10) (Nat.succ_pos m)]
      show ((m + 1) % 10) :: decDigitsRev f ((m + 1) / 10) = _
      congr 1
      have hd : (m + 1) / 10 < m + 1 := Nat.div_lt_self (Nat.succ_pos m) (by norm_num)
      exact ih ((m + 1) / 10) (by omega)

theorem natDecimalRepr_spec (n : Nat) (h1 : 100000 ≤ n) (h2 : n < 1000000) :
    (natDecimalRepr n).length = 6 ∧ ∀ c ∈ (natDecimalRepr n).data, c.isDigit = true := by
  have hne : n ≠ 0 := by omega
  have e5 : (10 : ℕ) ^ 5 = 100000 := by norm_num
  have e6 : (10 : ℕ) ^ 6 = 1000000 := by norm_num
  have hlog : Nat.log 10 n = 5 :=
    Nat.log_eq_of_pow_le_of_lt_pow (e5.symm ▸ h1) (e6.symm ▸ h2)
  have hlen : (Nat.digits 10 n).length = 6 := by
    rw [Nat.digits_len 10 n (by norm_num) hne, hlog]
  unfold natDecimalRepr
  rw [if_neg hne, decDigitsRev_eq_digits n n (Nat.le_refl n)]
  constructor
  · show ((Nat.digits 10 n).reverse.map fun d => Char.ofNat (48 + d)).length = 6
    rw [List.length_map, List.length_reverse, hlen]
  · intro c hc
    obtain ⟨d, hd, rfl⟩ := List.mem_map.mp (by simpa using hc)
    have hd10 : d < 10 := Nat.digits_lt_base (by norm_num) hd
    interval_cases d <;> decide

/-- Counterexample to C6 as stated: the generateLoginCode of the imported
authService.js variant ignores the CSPRNG draw and is determined by the
Math.random draw - its output is unchanged when only the CSPRNG draw changes
and changes when only the general-purpose PRNG draw changes, so the code is
not drawn from a cryptographically secure source. -/
theorem c6_prng_counterexample :
    AuthServiceJs.generateLoginCode srcCrypto0Math0 =
      AuthServiceJs.generateLoginCode srcCrypto1Math0
    ∧ AuthServiceJs.generateLoginCode srcCrypto0Math0 ≠
      AuthServiceJs.generateLoginCode srcCrypto0Math1 :=
  ⟨by decide, by decide⟩

/-- C6 amended: both generator variants produce a 6-character numeric string
whose value lies in the interval from 100000 to 999999; the emailService.js
variant is determined by the crypto.randomInt CSPRNG draw alone, while the
authService.js variant that the controllers import draws from Math.random, a
general-purpose PRNG, refuted above. -/
theorem c6_code_format_amended :
    (∀ src : RandomSources,
      100000 ≤ AuthServiceJs.loginCodeValue src
      ∧ AuthServiceJs.loginCodeValue src ≤ 999999
      ∧ (AuthServiceJs.generateLoginCode src).length = 6
      ∧ ∀ c ∈ (AuthServiceJs.generateLoginCode src).data, c.isDigit = true)
    ∧ (∀ src : RandomSources,
      100000 ≤ EmailServiceJs.loginCodeValue src
      ∧ EmailServiceJs.loginCodeValue src ≤ 999999
      ∧ (EmailServiceJs.generateLoginCode src).length = 6
      ∧ ∀ c ∈ (EmailServiceJs.generateLoginCode src).data, c.isDigit = true)
    ∧ (∀ src1 src2 : RandomSources, src1.cryptoInt = src2.cryptoInt →
        EmailServiceJs.generateLoginCode src1 = EmailServiceJs.generateLoginCode src2) := by
  have hA : ∀ v : Fin 900000, 100000 ≤ 100000 + v.val := fun v => Nat.le_add_right _ _
  have hB : ∀ v : Fin 900000, 100000 + v.val ≤ 999999 := fun v => by
    have := v.isLt; omega
  have hC : ∀ v : Fin 900000, (natDecimalRepr (100000 + v.val)).length = 6
      ∧ ∀ c ∈ (natDecimalRepr (100000 + v.val)).data, c.isDigit = true := fun v =>
    natDecimalRepr_spec _ (hA v) (by have := v.isLt; omega)
  refine ⟨fun src => ⟨hA _, hB _, (hC src.mathRandom).1, (hC src.mathRandom).2⟩,
    fun src => ⟨hA _, hB _, (hC src.cryptoInt).1, (hC src.cryptoInt).2⟩,
    fun s1 s2 h => ?_⟩
  unfold EmailServiceJs.generateLoginCode EmailServiceJs.loginCodeValue
  rw [h]

/-- Witness for the amended C6: two sources agreeing on the CSPRNG draw give
the same code from the emailService.js generator. -/
theorem c6_code_format_witness :
    EmailServiceJs.generateLoginCode srcCrypto0Math0 =
      EmailServiceJs.generateLoginCode srcCrypto0Math1 :=
  c6_code_format_amended.2.2 srcCrypto0Math0 srcCrypto0Math1 (by decide)

/-- Counterexample to C7 as stated: a token whose embedded expiry is in the
past but which is signed with a different secret fails with TokenInvalid,
not TokenExpired, because the library verifies the signature before the
expiry claim - so TokenExpired does not occur exactly when the expiry is in
the past. -/
theorem c7_expired_badsig_counterexample :
    expiredPayload.exp ≤ 100
    ∧ verifyJWT 1 100 (.wellFormed expiredPayload (.mac 999 expiredPayload)) =
        .error .tokenInvalid
    ∧ VerifyJWTError.tokenInvalid ≠ VerifyJWTError.tokenExpired :=
  ⟨by decide, by decide, by decide⟩

/-- C7 amended: for a structurally well-formed token correctly signed with
the server secret (and carrying no nbf claim, as every token this system
issues), verifyJWT fails with TokenExpired exactly when the embedded expiry
has been reached; a wrong signature or malformed structure yields
TokenInvalid - taking precedence over an elapsed expiry, as the
counterexample shows - and any other validation anomaly (an nbf claim still
in the future) yields TokenValidationFailed; the three error kinds are
pairwise distinct, hence distinguishable to the caller. -/
theorem c7_token_errors_amended :
    (∀ (secret now : Nat) (p : JwtPayload),
      p.nbf = none →
      (verifyJWT secret now (.wellFormed p (.mac secret p)) = .error .tokenExpired ↔
        p.exp ≤ now))
    ∧ (∀ (secret now : Nat) (p : JwtPayload) (sig : Signature),
        sig ≠ .mac secret p →
        verifyJWT secret now (.wellFormed p sig) = .error .tokenInvalid)
    ∧ (∀ (secret now : Nat) (raw : String),
        verifyJWT secret now (.malformed raw) = .error .tokenInvalid)
    ∧ (∀ (secret now : Nat) (p : JwtPayload) (t0 : Nat),
        p.nbf = some t0 → now < t0 →
        verifyJWT secret now (.wellFormed p (.mac secret p)) =
          .error .tokenValidationFailed)
    ∧ (VerifyJWTError.tokenExpired ≠ VerifyJWTError.tokenInvalid
       ∧ VerifyJWTError.tokenExpired ≠ VerifyJWTError.tokenValidationFailed
       ∧ VerifyJWTError.tokenInvalid ≠ VerifyJWTError.tokenValidationFailed) := by
  refine ⟨?_, ?_, ?_, ?_, by decide, by decide, by decide⟩
  · intro secret now p hnbf
    by_cases hexp : p.exp ≤ now <;>
      simp [verifyJWT, jwtLibVerify, nbfViolated, hnbf, hexp]
  · intro secret now p sig hsig
    simp [verifyJWT, jwtLibVerify, hsig]
  · intro secret now raw
    simp [verifyJWT, jwtLibVerify]
  · intro secret now p t0 hnbf hlt
    simp [verifyJWT, jwtLibVerify, nbfViolated, hnbf, hlt]

/-- Witness for the amended C7: a correctly signed token past its expiry
fails with TokenExpired. -/
theorem c7_token_errors_witness :
    verifyJWT 1 100 (.wellFormed expiredPayload (.mac 1 expiredPayload)) =
      .error .tokenExpired :=
  (c7_token_errors_amended.1 1 100 expiredPayload (by decide)).mpr (by decide)

theorem updateLastLogin_emails (accounts : List Account) (id now : Nat) :
    (updateLastLogin accounts id now).map Account.email = accounts.map Account.email := by
  unfold updateLastLogin
  rw [List.map_map]
  apply List.map_congr_left
  intro a _
  by_cases h : a.accountid = id <;> simp [Function.comp, h]

/-- C8: when the supplied code matches an unexpired unused attempt,
verifyLogin looks the account up by email, creates one exactly when none
exists, and returns a success carrying the session token, the 30-day
expiresAt, and the account's accountId and email - the freshly assigned
accountid when the email is new, with exactly one account row (of that
email) appended; when the account exists its accountid is returned and the
set of account emails is unchanged. -/
theorem c8_complete_login_spec (secret now : Nat) (st : SystemState) (email code : String)
    (a : LoginAttempt) (rows2 : List LoginAttempt)
    (hm : EmailServiceJs.verifyLoginCode st.attempts now email code = .ok (some a, rows2)) :
    (findAccountByEmail st.accountDb.accounts email = none →
      (verifyLogin secret now st email code).1 =
        .success { token := generateJWT secret now st.accountDb.nextId email,
                   expiresAtMs := 1000 * now + 30 * 24 * 60 * 60 * 1000,
                   accountId := st.accountDb.nextId, email := email }
      ∧ (verifyLogin secret now st email code).2.accountDb.accounts.map Account.email =
          st.accountDb.accounts.map Account.email ++ [email])
    ∧ (∀ acct, findAccountByEmail st.accountDb.accounts email = some acct →
        (verifyLogin secret now st email code).1 =
          .success { token := generateJWT secret now acct.accountid email,
                     expiresAtMs := 1000 * now + 30 * 24 * 60 * 60 * 1000,
                     accountId := acct.accountid, email := email }
        ∧ (verifyLogin secret now st email code).2.accountDb.accounts.map Account.email =
            st.accountDb.accounts.map Account.email) := by
  constructor
  · intro hnone
    have hany : (st.accountDb.accounts.any fun x => decide (x.email = email)) = false := by
      rw [List.any_eq_false]
      exact fun x hx => by simpa using List.find?_eq_none.mp hnone x hx
    have hcl : completeLogin secret now st.accountDb email =
        .ok ({ token := generateJWT secret now st.accountDb.nextId email,
               expiresAtMs := 1000 * now + 30 * 24 * 60 * 60 * 1000,
               accountId := st.accountDb.nextId, email := email },
             { accounts := updateLastLogin (st.accountDb.accounts ++
                 [{ accountid := st.accountDb.nextId, email := email, created_at := now,
                    last_login_at := some now, is_active := true }])
                 st.accountDb.nextId now,
               nextId := st.accountDb.nextId + 1 }) := by
      unfold completeLogin createAccount
      rw [hnone]
      simp [hany]
    have hv : verifyLogin secret now st email code =
        (.success { token := generateJWT secret now st.accountDb.nextId email,
                    expiresAtMs := 1000 * now + 30 * 24 * 60 * 60 * 1000,
                    accountId := st.accountDb.nextId, email := email },
         { attempts := rows2,
           accountDb :=
             { accounts := updateLastLogin (st.accountDb.accounts ++
                 [{ accountid := st.accountDb.nextId, email := email, created_at := now,
                    last_login_at := some now, is_active := true }])
                 st.accountDb.nextId now,
               nextId := st.accountDb.nextId + 1 } }) := by
      unfold verifyLogin
      rw [hm, hcl]
    rw [hv]
    refine ⟨rfl, ?_⟩
    show (updateLastLogin _ _ _).map Account.email = _
    rw [updateLastLogin_emails, List.map_append]
    rfl
  · intro acct hsome
    have hcl : completeLogin secret now st.accountDb email =
        .ok ({ token := generateJWT secret now acct.accountid email,
               expiresAtMs := 1000 * now + 30 * 24 * 60 * 60 * 1000,
               accountId := acct.accountid, email := email },
             { accounts := updateLastLogin st.accountDb.accounts acct.accountid now,
               nextId := st.accountDb.nextId }) := by
      unfold completeLogin
      rw [hsome]
    have hv : verifyLogin secret now st email code =
        (.success { token := generateJWT secret now acct.accountid email,
                    expiresAtMs := 1000 * now + 30 * 24 * 60 * 60 * 1000,
                    accountId := acct.accountid, email := email },
         { attempts := rows2,
           accountDb := { accounts := updateLastLogin st.accountDb.accounts acct.accountid now,
                          nextId := st.accountDb.nextId } }) := by
      unfold verifyLogin
      rw [hm, hcl]
    rw [hv]
    exact ⟨rfl, updateLastLogin_emails _ _ _⟩

/-- Witness for C8 at a concrete store: the matching code against an empty
accounts table returns the fresh accountid 1 and appends one account row for
the email. -/
theorem c8_complete_login_witness :
    (verifyLogin 7 1200
        { attempts := sampleRows, accountDb := { accounts := [], nextId := 1 } }
        "a@x.com" "123456").1 =
      .success { token := generateJWT 7 1200 1 "a@x.com",
                 expiresAtMs := 1000 * 1200 + 30 * 24 * 60 * 60 * 1000,
                 accountId := 1, email := "a@x.com" }
    ∧ (verifyLogin 7 1200
        { attempts := sampleRows, accountDb := { accounts := [], nextId := 1 } }
        "a@x.com" "123456").2.accountDb.accounts.map Account.email = ["a@x.com"] :=
  (c8_complete_login_spec 7 1200
    { attempts := sampleRows, accountDb := { accounts := [], nextId := 1 } }
    "a@x.com" "123456" ⟨1, "a@x.com", "123456", 1000, false⟩
    (markUsed sampleRows 1) (by decide)).1 (by decide)

/-- Counterexample to C9 as stated: when an account for the email already
exists, the account-creation path does not complete - the unique-constraint
violation surfaces as the storage error instead of a fallback read of the
existing row. -/
theorem c9_duplicate_create_counterexample :
    createAccount
      { accounts :=
          [{ accountid := 1, email := "a@x.com", created_at := 0,
             last_login_at := none, is_active := true }], nextId := 2 }
      50 "a@x.com" = .error "database error creating account" := by
  decide

/-- C9 amended: the unique constraint does make duplicate creation
impossible - createAccount refuses any email already on file, and a
successful create appends exactly one row with the new email while
preserving email uniqueness - but there is no fallback read: the refused
insert surfaces the storage error `database error creating account` rather
than completing with the existing row. -/
theorem c9_unique_email_amended (db : AccountDB) (now : Nat) (email : String)
    (hu : uniqueEmails db.accounts) :
    ((∃ acct ∈ db.accounts, acct.email = email) →
      createAccount db now email = .error "database error creating account")
    ∧ (∀ (id : Nat) (db2 : AccountDB), createAccount db now email = .ok (id, db2) →
        id = db.nextId
        ∧ db2.accounts.map Account.email = db.accounts.map Account.email ++ [email]
        ∧ uniqueEmails db2.accounts) := by
  constructor
  · intro h
    obtain ⟨acct, hacct, heq⟩ := h
    have hany : (db.accounts.any fun a => decide (a.email = email)) = true :=
      List.any_eq_true.mpr ⟨acct, hacct, by simpa using heq⟩
    unfold createAccount
    simp [hany]
  · intro id db2 h
    unfold createAccount at h
    by_cases hany : (db.accounts.any fun a => decide (a.email = email)) = true
    · simp [hany] at h
    · rw [Bool.not_eq_true] at hany
      simp only [hany, Bool.false_eq_true, if_false, Except.ok.injEq, Prod.mk.injEq] at h
      obtain ⟨h1, h2⟩ := h
      subst h1
      subst h2
      refine ⟨rfl, by simp, ?_⟩
      unfold uniqueEmails
      rw [List.pairwise_append]
      refine ⟨hu, List.pairwise_singleton _ _, ?_⟩
      intro a ha b hb
      have hne := List.any_eq_false.mp hany a ha
      simp only [List.mem_singleton] at hb
      subst hb
      simpa using hne

/-- Witness for the amended C9 at a concrete store holding two accounts: a
duplicate create for one of the emails surfaces the storage error. -/
theorem c9_unique_email_witness :
    createAccount
      { accounts :=
          [{ accountid := 1, email := "a@x.com", created_at := 0,
             last_login_at := none, is_active := true },
           { accountid := 2, email := "b@x.com", created_at := 10,
             last_login_at := none, is_active := true }], nextId := 3 }
      60 "b@x.com" = .error "database error creating account" :=
  (c9_unique_email_amended
    { accounts :=
        [{ accountid := 1, email := "a@x.com", created_at := 0,
           last_login_at := none, is_active := true },
         { accountid := 2, email := "b@x.com", created_at := 10,
           last_login_at := none, is_active := true }], nextId := 3 }
    60 "b@x.com" (by unfold uniqueEmails; decide)).1
    ⟨{ accountid := 2, email := "b@x.com", created_at := 10,
       last_login_at := none, is_active := true }, by decide, by decide⟩

end Chatterbox
